import Mathlib

/-!
Verification of the PulseBoard audio core against its specification.

The definitions below are a shallow embedding, translated from the
Python sources:

* `src/audio/audio_engine.py`   — playback and recording state machine
  (`AudioEngine`, backed by the pygame mixer and a sounddevice input
  stream);
* `src/audio/editors/trimmer.py` — `AudioTrimmer.trim`;
* `src/audio/effects/speed_effect.py` and `pitch_effect.py` — the two
  resampling effects.

Machine floats are modelled by exact rationals (`ℚ`); the claims checked
here tolerate ±1-sample rounding, so exact arithmetic is a faithful
abstraction.  File I/O is modelled by passing decoded sample data in and
returning the written payload out.  Library calls on the boundary
(pygame mixer, `scipy.signal.resample`, `np.interp`) are modelled by
their observable contracts, including their failure on degenerate
inputs: the FFT underlying `scipy.signal.resample` rejects an empty
input signal, and `np.interp` rejects an empty array of sample points;
both are modelled with `Option`.
-/

namespace PulseBoard

/-! ### Playback model (`AudioEngine` playback half, `audio_engine.py`)

The pygame mixer backs playback.  A loaded `pygame.mixer.Sound` carries
its own volume (set via `Sound.set_volume`, which clamps to `[0,1]`).
`Sound.play(loops)` starts playback on a *fresh* mixer channel, leaving
any channel already playing that sound running; `Sound.stop()` stops the
sound on every channel; `pygame.mixer.stop()` stops all channels;
`pygame.mixer.get_busy()` reports whether *any* channel is active.
Channels are modelled as unbounded (the claims checked here involve one
or two voices, far below the mixer's channel pool, so pool-exhaustion
eviction is out of scope), and the passage of device time — which
retires finished non-looping voices — is left implicit: any reachable
set of live channels is a state. -/

/-- A loaded sound: the decoded clip for a file path plus the volume last
set on the `Sound` object (`Sound.set_volume` clamps to `[0,1]`). -/
structure Clip where
  filePath : String
  volume : ℚ
deriving DecidableEq, Repr

/-- One live mixer channel: which sound id it is playing and the `loops`
argument it was started with (`0` = play once, `-1` = restart forever). -/
structure Voice where
  soundId : String
  loops : Int
deriving DecidableEq, Repr

/-- State of the playback half of `AudioEngine`: `_playing_sounds`
(`sound_id -> pygame.mixer.Sound`, a dict in insertion order) and the
set of active mixer channels. -/
structure EngineState where
  playingSounds : List (String × Clip)
  voices : List Voice
deriving DecidableEq, Repr

/-- Python-dict update on an association list: replace in place if the
key is present, append otherwise. -/
def setKey (l : List (String × Clip)) (k : String) (v : Clip) :
    List (String × Clip) :=
  if l.any (fun p => p.1 = k) then
    l.map (fun p => if p.1 = k then (k, v) else p)
  else l ++ [(k, v)]

/-- Errors raised by the engine (`ValueError` / `RuntimeError` raise
sites in `audio_engine.py`, by the spec's error taxonomy). -/
inductive EngineError
  | notLoaded (soundId : String)
deriving DecidableEq, Repr

/-- `AudioEngine.load_sound`: decode the file and store it under the id,
replacing any existing entry (`self._playing_sounds[sound_id] = ...`).
A fresh `pygame.mixer.Sound` starts at volume 1. -/
def load_sound (s : EngineState) (soundId filePath : String) : EngineState :=
  { s with playingSounds := setKey s.playingSounds soundId ⟨filePath, 1⟩ }

/-- Whether `sound_id in self._playing_sounds`. -/
def isLoaded (s : EngineState) (soundId : String) : Bool :=
  s.playingSounds.any (fun p => p.1 = soundId)

/-- pygame `Sound.set_volume` clamps its argument to `[0, 1]`. -/
def clampVolume (v : ℚ) : ℚ := max 0 (min 1 v)

/-- `sound.set_volume(volume)` on the `Sound` stored under `soundId`:
updates that entry's volume (clamped), leaving every key in place. -/
def setVolumeOnClip (l : List (String × Clip)) (soundId : String) (v : ℚ) :
    List (String × Clip) :=
  l.map (fun p =>
    if p.1 = soundId then (p.1, { p.2 with volume := clampVolume v }) else p)

/-- `AudioEngine.play`: raises `ValueError` if the id is not loaded;
otherwise sets the sound's volume and calls `Sound.play(loops)`, which
starts the sound on a fresh mixer channel.  No existing channel is
stopped. -/
def play (s : EngineState) (soundId : String) (volume : ℚ) (loops : Int) :
    Except EngineError EngineState :=
  if isLoaded s soundId then
    .ok { playingSounds := setVolumeOnClip s.playingSounds soundId volume,
          voices := s.voices ++ [⟨soundId, loops⟩] }
  else
    .error (.notLoaded soundId)

/-- `AudioEngine.stop`: if the id is loaded, `Sound.stop()` halts that
sound on every channel playing it; otherwise a no-op. -/
def stop (s : EngineState) (soundId : String) : EngineState :=
  if isLoaded s soundId then
    { s with voices := s.voices.filter (fun v => v.soundId ≠ soundId) }
  else s

/-- `AudioEngine.stop_all`: `pygame.mixer.stop()` halts every channel. -/
def stop_all (s : EngineState) : EngineState :=
  { s with voices := [] }

/-- `AudioEngine.is_playing`: `False` when the id is not loaded;
otherwise returns `pygame.mixer.get_busy()` — whether *any* mixer
channel is active, not whether this particular sound is. -/
def is_playing (s : EngineState) (soundId : String) : Bool :=
  if isLoaded s soundId then !s.voices.isEmpty else false

/-- The channels currently playing a given sound id. -/
def voicesFor (s : EngineState) (soundId : String) : List Voice :=
  s.voices.filter (fun v => v.soundId = soundId)

/-! ### Recording model (`AudioEngine` recording half, `audio_engine.py`)

`start_recording` opens a sounddevice `InputStream` at the requested
sample rate and channel count and begins accumulating blocks; the
stream's callback appends each captured block to `_recording_buffer`
while `_recording_active` holds.  `stop_recording` stops and closes the
stream, concatenates the blocks and writes them with
`sf.write(output_path, audio_data, 44100)` — note the literal `44100`.
Writing a file is modelled by returning the written payload. -/

/-- Configuration of an open `sounddevice.InputStream`. -/
structure StreamConfig where
  samplerate : ℕ
  channels : ℕ
deriving DecidableEq, Repr

/-- A captured block: its frames, each frame one sample per channel. -/
abbrev Block := List (List ℚ)

/-- Recording-side state of `AudioEngine`: `_recording_stream`,
`_recording_buffer` and `_recording_active`. -/
structure RecState where
  recordingStream : Option StreamConfig
  recordingBuffer : List Block
  recordingActive : Bool
deriving DecidableEq, Repr

/-- The recording-side `RuntimeError` raise sites of `audio_engine.py`,
by the spec's error taxonomy. -/
inductive RecError
  | alreadyRecording
  | notRecording
  | emptyRecording
deriving DecidableEq, Repr

/-- The fresh state `AudioEngine.__init__` sets up. -/
def initialRecState : RecState :=
  { recordingStream := none, recordingBuffer := [], recordingActive := false }

/-- `AudioEngine.start_recording`: raises if already active, otherwise
resets the buffer, marks recording active and opens an input stream at
the requested sample rate and channel count (defaults 44100 / 2). -/
def start_recording (s : RecState) (samplerate : ℕ := 44100)
    (channels : ℕ := 2) : Except RecError RecState :=
  if s.recordingActive then .error .alreadyRecording
  else
    .ok { recordingStream := some ⟨samplerate, channels⟩,
          recordingBuffer := [],
          recordingActive := true }

/-- The stream callback: while `_recording_active`, append the incoming
block to `_recording_buffer`; blocks arriving afterwards are dropped. -/
def captureBlock (s : RecState) (block : Block) : RecState :=
  if s.recordingActive then
    { s with recordingBuffer := s.recordingBuffer ++ [block] }
  else s

/-- A file written by `soundfile.write`: its path, its frames and the
sample rate recorded in its header. -/
structure WrittenFile where
  path : String
  frames : List (List ℚ)
  samplerate : ℕ
deriving DecidableEq, Repr

/-- Full outcome of a `stop_recording` call: the engine state it leaves
behind, the file it wrote (if any), and its return value or raised
error. -/
structure StopOutcome where
  state : RecState
  written : Option WrittenFile
  result : Except RecError String
deriving Repr

/-- `AudioEngine.stop_recording`: raises `RuntimeError` if not active.
Otherwise it first clears `_recording_active`, stops and closes the
stream, and only then checks the buffer: an empty buffer raises
`RuntimeError("No audio data recorded")` with no file written.  A
non-empty buffer is concatenated in arrival order and written with
`sf.write(output_path, audio_data, 44100)` — the sample rate is the
literal constant `44100`, not the stream's configured rate — then the
buffer is cleared and the path returned. -/
def stop_recording (s : RecState) (outputPath : String) : StopOutcome :=
  if !s.recordingActive then
    { state := s, written := none, result := .error .notRecording }
  else
    let s1 : RecState :=
      { s with recordingActive := false, recordingStream := none }
    if s1.recordingBuffer.isEmpty then
      { state := s1, written := none, result := .error .emptyRecording }
    else
      let audioData := s1.recordingBuffer.flatten
      { state := { s1 with recordingBuffer := [] },
        written := some ⟨outputPath, audioData, 44100⟩,
        result := .ok outputPath }

/-- `AudioEngine.is_recording`: returns `_recording_active`. -/
def is_recording (s : RecState) : Bool :=
  s.recordingActive

/-! ### Trimmer (`AudioTrimmer.trim`, `trimmer.py`)

The file read by `sf.read` is modelled as its decoded frame sequence
plus its sample rate; the `sf.write` at the end is modelled by returning
the written frames together with the sample rate they are written at.
Each element of `data` is one frame (`len(data)` counts frames for both
mono and multi-channel files).  Python's `int()` on the non-negative
products here truncates, i.e. takes the floor. -/

/-- The two `ValueError` raise-site families of `AudioTrimmer.trim`: the
argument-validation messages, and the range error whose message
interpolates the offending `start_time`.  The spec files them under
`InvalidArgument` and `RangeError` respectively. -/
inductive TrimError
  | invalidArgument (msg : String)
  | rangeError (startTime : ℚ)
deriving DecidableEq, Repr

/-- `AudioTrimmer.trim`: validates the time range, converts both times
to sample indices with `int(time * samplerate)`, rejects a start index
at or past the end of the data, clamps the end index with `min`, slices
the half-open range and writes it at the original sample rate. -/
def trim (data : List ℚ) (samplerate : ℕ) (startTime endTime : ℚ) :
    Except TrimError (List ℚ × ℕ) :=
  if startTime < 0 then
    .error (.invalidArgument "start_time cannot be negative")
  else if endTime ≤ startTime then
    .error (.invalidArgument "end_time must be greater than start_time")
  else
    let startSample := Int.toNat ⌊startTime * samplerate⌋
    let endSample := Int.toNat ⌊endTime * samplerate⌋
    let totalSamples := data.length
    if totalSamples ≤ startSample then
      .error (.rangeError startTime)
    else
      let endSample := min endSample totalSamples
      .ok ((data.drop startSample).take (endSample - startSample), samplerate)

/-! ### Effects (`speed_effect.py`, `pitch_effect.py`)

A numpy sample array is either one-dimensional (a mono signal) or
two-dimensional with at least two columns; both effects branch on
exactly that shape test (`len(samples.shape) > 1 and samples.shape[1] > 1`)
and then treat a 2-D array column by column.  We model the array in
channel-major form.

`scipy.signal.resample(x, num)` produces exactly `num` samples of a
resampled `x`; on an empty input signal the underlying FFT raises
(`invalid number of data points`), so the model returns `none` there.
Its Fourier-interpolated sample values are abstracted as linear
interpolation on the uniform grid — every claim checked here concerns
only lengths and channel structure, never sample values.

`np.interp(x, xp, fp)` raises `ValueError` when `xp` is empty and
otherwise evaluates the piecewise-linear function through
`(xp i, fp i)`, clamping outside the range; here `xp` is always
`np.arange(len(fp))`. -/

/-- Linear interpolation of `fp` against sample points
`0, 1, ..., fp.length - 1`, clamped at both ends — the curve
`np.interp` evaluates (for nonempty `fp`). -/
def interpClamped (fp : List ℚ) (x : ℚ) : ℚ :=
  if x ≤ 0 then fp.headD 0
  else if (fp.length : ℚ) - 1 ≤ x then fp.getLastD 0
  else
    let i := Int.toNat ⌊x⌋
    let y0 := fp.getD i 0
    let y1 := fp.getD (i + 1) 0
    y0 + (x - (i : ℚ)) * (y1 - y0)

/-- Model of `np.interp(xs, np.arange(len(fp)), fp)`: fails on an empty
array of sample points, otherwise maps the clamped interpolant. -/
def npInterp (xs : List ℚ) (fp : List ℚ) : Option (List ℚ) :=
  if fp.isEmpty then none
  else some (xs.map (interpClamped fp))

/-- Model of `scipy.signal.resample(xs, n)`: the FFT rejects an empty
input; otherwise exactly `n` output samples, taken at the uniform
positions `i * len(xs) / n` (values abstracted by `interpClamped`). -/
def signalResample (xs : List ℚ) (n : ℕ) : Option (List ℚ) :=
  if xs.isEmpty then none
  else some ((List.range n).map
    (fun (i : ℕ) => interpClamped xs ((i : ℚ) * xs.length / n)))

/-- A decoded sample array: 1-D mono, or 2-D with ≥ 2 channels (held
channel-major; all channels of a rectangular array share one length). -/
inductive SampleData
  | mono (samples : List ℚ)
  | multi (channels : List (List ℚ))
deriving DecidableEq, Repr

/-- The channels of a sample array, in order (a mono signal is its own
single channel). -/
def channels : SampleData → List (List ℚ)
  | .mono xs => [xs]
  | .multi cs => cs

/-- Per-channel lengths of a sample array, in channel order. -/
def channelLengths (s : SampleData) : List ℕ :=
  (channels s).map List.length

/-- `SpeedEffect`: constructed with a positive `speed` factor. -/
structure SpeedEffect where
  speed : ℚ
deriving DecidableEq, Repr

/-- The per-channel loop of `SpeedEffect.apply` (and the column loop of
`np.column_stack`): resample every channel to `n` samples, failing if
any single resample fails. -/
def resampleChannels (chans : List (List ℚ)) (n : ℕ) :
    Option (List (List ℚ)) :=
  match chans with
  | [] => some []
  | c :: rest => do
      let r ← signalResample c n
      let rs ← resampleChannels rest n
      pure (r :: rs)

/-- `SpeedEffect.apply`: identity at `speed == 1.0`; otherwise computes
`new_length = int(len(samples) / speed)` from the frame count and
resamples every channel to that length (stereo path per column, mono
path directly). -/
def SpeedEffect.apply (e : SpeedEffect) (samples : SampleData) :
    Option SampleData :=
  if e.speed = 1 then some samples
  else
    match samples with
    | .mono xs =>
        let newLength := Int.toNat ⌊(xs.length : ℚ) / e.speed⌋
        (signalResample xs newLength).map .mono
    | .multi chans =>
        let frameCount := (chans.headD []).length
        let newLength := Int.toNat ⌊(frameCount : ℚ) / e.speed⌋
        (resampleChannels chans newLength).map .multi

/-- `PitchEffect`: constructed with a positive `pitch_shift` factor. -/
structure PitchEffect where
  pitch_shift : ℚ
deriving DecidableEq, Repr

/-- Model of `np.linspace(a, b, n)`: `n` uniformly spaced points from
`a` to `b` inclusive.  (For `n = 1` numpy yields `[a]`; the formula
below agrees since the division by `n - 1 = 0` contributes nothing.) -/
def linspace (a b : ℚ) (n : ℕ) : List ℚ :=
  (List.range n).map (fun (i : ℕ) => a + (b - a) * i / ((n : ℚ) - 1))

/-- `PitchEffect._shift_pitch_channel`: resample one channel to
`int(len / pitch_shift)` samples, then interpolate that result back
onto `len` uniform positions `np.linspace(0, len(resampled) - 1, len)`
to restore the original duration. -/
def shiftPitchChannel (e : PitchEffect) (channelData : List ℚ) :
    Option (List ℚ) :=
  let newLength := Int.toNat ⌊(channelData.length : ℚ) / e.pitch_shift⌋
  do
    let resampled ← signalResample channelData newLength
    let indices := linspace 0 ((resampled.length : ℚ) - 1) channelData.length
    npInterp indices resampled

/-- The per-channel loop of `PitchEffect.apply` over the columns of a
multi-channel array, recombined in order by `np.column_stack`. -/
def pitchChannels (e : PitchEffect) (chans : List (List ℚ)) :
    Option (List (List ℚ)) :=
  match chans with
  | [] => some []
  | c :: rest => do
      let r ← shiftPitchChannel e c
      let rs ← pitchChannels e rest
      pure (r :: rs)

/-- `PitchEffect.apply`: identity at `pitch_shift == 1.0`; otherwise
each channel is pitch-shifted independently and the results recombined
preserving channel order. -/
def PitchEffect.apply (e : PitchEffect) (samples : SampleData) :
    Option SampleData :=
  if e.pitch_shift = 1 then some samples
  else
    match samples with
    | .mono xs => (shiftPitchChannel e xs).map .mono
    | .multi chans => (pitchChannels e chans).map .multi

/-! ## Theorems -/

/-- Setting a clip's volume never changes which keys are present. -/
lemma any_key_setVolumeOnClip (l : List (String × Clip)) (a b : String)
    (v : ℚ) :
    ((setVolumeOnClip l a v).any (fun p => p.1 = b)) =
      (l.any (fun p => p.1 = b)) := by
  induction l with
  | nil => rfl
  | cons hd tl ih =>
      by_cases h : hd.1 = a <;> simp [setVolumeOnClip, h, ih] <;>
        simp [setVolumeOnClip] at ih <;> rw [ih]

/-- Claim C1, corrected: `play` does not stop the existing Voice for the
clip id.  Each call starts one more mixer channel for it, so after two
plays on the same loaded id the number of active Voices for that id has
grown by two, the second play's state keeping every voice of the first
play's state. -/
theorem play_twice_stacks (s : EngineState) (soundId : String)
    (v1 v2 : ℚ) (l1 l2 : Int) (h : isLoaded s soundId = true) :
    ∃ s1 s2, play s soundId v1 l1 = .ok s1 ∧ play s1 soundId v2 l2 = .ok s2 ∧
      s2.voices = s1.voices ++ [⟨soundId, l2⟩] ∧
      (voicesFor s2 soundId).length = (voicesFor s soundId).length + 2 := by
  have h1 : isLoaded ⟨setVolumeOnClip s.playingSounds soundId v1,
      s.voices ++ [⟨soundId, l1⟩]⟩ soundId = true := by
    simp only [isLoaded, any_key_setVolumeOnClip]
    exact h
  refine ⟨⟨setVolumeOnClip s.playingSounds soundId v1,
      s.voices ++ [⟨soundId, l1⟩]⟩,
    ⟨setVolumeOnClip (setVolumeOnClip s.playingSounds soundId v1) soundId v2,
      (s.voices ++ [⟨soundId, l1⟩]) ++ [⟨soundId, l2⟩]⟩,
    by simp [play, h], by simp [play, h1], rfl, ?_⟩
  simp [voicesFor, List.filter_append]

/-- Witness for `play_twice_stacks`: one loaded clip `"a"`, idle mixer,
played twice; two voices for `"a"` afterwards. -/
theorem play_twice_stacks_witness :
    isLoaded ⟨[("a", ⟨"a.wav", 1⟩)], []⟩ "a" = true ∧
    ∃ s1 s2, play ⟨[("a", ⟨"a.wav", 1⟩)], []⟩ "a" 1 0 = .ok s1 ∧
      play s1 "a" (1/2) (-1) = .ok s2 ∧
      s2.voices = s1.voices ++ [⟨"a", -1⟩] ∧
      (voicesFor s2 "a").length =
        (voicesFor ⟨[("a", ⟨"a.wav", 1⟩)], []⟩ "a").length + 2 :=
  ⟨rfl, play_twice_stacks ⟨[("a", ⟨"a.wav", 1⟩)], []⟩ "a" 1 (1/2) 0 (-1) rfl⟩

/-- Counterexample to claim C1 as stated: after playing loaded clip
`"a"` twice, two Voices are active for `"a"`, not exactly one — the
first play's Voice was never stopped. -/
theorem play_twice_not_replace_counterexample :
    ∃ s1 s2, play ⟨[("a", ⟨"a.wav", 1⟩)], []⟩ "a" 1 0 = .ok s1 ∧
      play s1 "a" 1 0 = .ok s2 ∧
      (voicesFor s2 "a").length = 2 ∧ ¬(voicesFor s2 "a").length = 1 := by
  refine ⟨_, _, rfl, rfl, ?_, ?_⟩ <;> simp [voicesFor]

/-- Claim C2 (code bug): with clips `"a"` and `"b"` loaded and a single
voice playing `"a"`, `is_playing "b"` answers `true` — it reports the
device-wide `pygame.mixer.get_busy()` — although no Voice at all is
active for `"b"`.  The state is reached by two loads and one play. -/
theorem is_playing_conflates_ids :
    ∃ s, play (load_sound (load_sound ⟨[], []⟩ "a" "a.wav") "b" "b.wav")
        "a" 1 0 = .ok s ∧
      voicesFor s "b" = [] ∧ is_playing s "b" = true := by
  refine ⟨_, rfl, ?_, ?_⟩ <;>
    simp [voicesFor, is_playing, isLoaded, setVolumeOnClip, load_sound, setKey]

/-- Claim C8, corrected: `play` performs no volume-range validation.
For every volume — inside or outside `[0,1]` — the call succeeds and
starts a Voice whenever the clip id is loaded (pygame clamps the volume
scalar), and fails with the not-loaded `ValueError` exactly when the id
is not loaded; the volume never causes a failure. -/
theorem play_ignores_volume_range (s : EngineState) (soundId : String)
    (volume : ℚ) (loops : Int) :
    (isLoaded s soundId = true →
      ∃ s', play s soundId volume loops = .ok s' ∧
        (voicesFor s' soundId).length = (voicesFor s soundId).length + 1) ∧
    (isLoaded s soundId = false →
      play s soundId volume loops = .error (.notLoaded soundId)) := by
  constructor
  · intro h
    refine ⟨⟨setVolumeOnClip s.playingSounds soundId volume,
      s.voices ++ [⟨soundId, loops⟩]⟩, by simp [play, h], ?_⟩
    simp [voicesFor, List.filter_append]
  · intro h
    simp [play, h]

/-- Witness for `play_ignores_volume_range`: volume `2` (outside
`[0,1]`) succeeds on the loaded id `"a"` and starts a voice, and fails
with the not-loaded error on the unloaded id `"b"`. -/
theorem play_ignores_volume_range_witness :
    (∃ s', play ⟨[("a", ⟨"a.wav", 1⟩)], []⟩ "a" 2 0 = .ok s' ∧
      (voicesFor s' "a").length =
        (voicesFor ⟨[("a", ⟨"a.wav", 1⟩)], []⟩ "a").length + 1) ∧
    play ⟨[("a", ⟨"a.wav", 1⟩)], []⟩ "b" 2 0 = .error (.notLoaded "b") :=
  ⟨(play_ignores_volume_range ⟨[("a", ⟨"a.wav", 1⟩)], []⟩ "a" 2 0).1 rfl,
   (play_ignores_volume_range ⟨[("a", ⟨"a.wav", 1⟩)], []⟩ "b" 2 0).2 rfl⟩

/-- Counterexample to claim C8 as stated: playing loaded clip `"a"` at
volume `2 ∉ [0,1]` does not fail — it succeeds and a Voice is active. -/
theorem play_out_of_range_volume_counterexample :
    ∃ s', play ⟨[("a", ⟨"a.wav", 1⟩)], []⟩ "a" 2 0 = .ok s' ∧
      (voicesFor s' "a").length = 1 := by
  refine ⟨_, rfl, ?_⟩
  simp [voicesFor]

/-- A nonempty signal resamples to the sample values at the `n` uniform
grid positions. -/
lemma signalResample_eq_some (xs : List ℚ) (n : ℕ) (h : xs ≠ []) :
    signalResample xs n =
      some ((List.range n).map
        (fun (i : ℕ) => interpClamped xs ((i : ℚ) * xs.length / n))) := by
  simp [signalResample, h]

/-- `scipy.signal.resample` to `n` samples yields exactly `n` samples
whenever it yields at all. -/
lemma signalResample_length {xs r : List ℚ} {n : ℕ}
    (h : signalResample xs n = some r) : r.length = n := by
  unfold signalResample at h
  split at h
  · exact Option.noConfusion h
  · obtain rfl : _ = r := Option.some.inj h
    simp only [List.length_map, List.length_range]

/-- Resampling every channel of a rectangle of nonempty channels to `n`
samples succeeds and gives every output channel length `n`. -/
lemma resampleChannels_eq_some (chans : List (List ℚ)) (n : ℕ)
    (h : ∀ c ∈ chans, c ≠ []) :
    ∃ rs, resampleChannels chans n = some rs ∧
      rs.map List.length = chans.map (fun _ => n) := by
  induction chans with
  | nil => exact ⟨[], rfl, rfl⟩
  | cons c rest ih =>
      obtain ⟨rs, hrs, hlen⟩ := ih (fun x hx => h x (by simp [hx]))
      have hc : c ≠ [] := h c (by simp)
      refine ⟨(List.range n).map
          (fun (i : ℕ) => interpClamped c ((i : ℚ) * c.length / n)) :: rs, ?_, ?_⟩
      · simp [resampleChannels, signalResample_eq_some c n hc, hrs]
      · simp only [List.map_cons, hlen, List.length_map, List.length_range]

/-- Truncation (`int`) and rounding to nearest of the same non-negative
quotient differ by at most one. -/
lemma toNat_floor_round_close (L : ℕ) (q : ℚ) (hq : 0 < q) :
    |(Int.toNat ⌊(L : ℚ) / q⌋ : ℤ) - round ((L : ℚ) / q)| ≤ 1 := by
  have hnn : (0 : ℚ) ≤ (L : ℚ) / q := div_nonneg (Nat.cast_nonneg L) hq.le
  have hfl : (0 : ℤ) ≤ ⌊(L : ℚ) / q⌋ := Int.floor_nonneg.mpr hnn
  rw [Int.toNat_of_nonneg hfl, round_eq]
  have h1 : ⌊(L : ℚ) / q⌋ ≤ ⌊(L : ℚ) / q + 1/2⌋ :=
    Int.floor_le_floor (by linarith)
  have h2 : ⌊(L : ℚ) / q + 1/2⌋ ≤ ⌊(L : ℚ) / q⌋ + 1 := by
    calc ⌊(L : ℚ) / q + 1/2⌋ ≤ ⌊(L : ℚ) / q + 1⌋ :=
          Int.floor_le_floor (by linarith)
      _ = ⌊(L : ℚ) / q⌋ + 1 := by rw [Int.floor_add_one]
  rw [abs_le]
  omega

/-- Claim C4, amended to nonempty channels: for every buffer whose
channels all have a positive length `L` and every valid speed ≠ 1, the
speed effect succeeds and every output channel has length
`int(L / speed)`, which is within ±1 of `round(L / speed)`.  (The empty
buffer is excluded: the FFT under `scipy.signal.resample` rejects an
empty input, see the counterexample.) -/
theorem speed_apply_channel_lengths (e : SpeedEffect) (samples : SampleData)
    (L : ℕ) (hpos : 0 < e.speed) (hne : e.speed ≠ 1)
    (hL : ∀ l ∈ channelLengths samples, l = L) (hL1 : 1 ≤ L) :
    ∃ out, SpeedEffect.apply e samples = some out ∧
      channelLengths out = (channelLengths samples).map
        (fun _ => Int.toNat ⌊(L : ℚ) / e.speed⌋) ∧
      |(Int.toNat ⌊(L : ℚ) / e.speed⌋ : ℤ) - round ((L : ℚ) / e.speed)| ≤ 1 := by
  have hclose := toNat_floor_round_close L e.speed hpos
  rcases samples with xs | chans
  · have hxl : xs.length = L := hL _ (by simp [channelLengths, channels])
    have hx : xs ≠ [] := by
      intro hempty
      rw [hempty] at hxl
      simp at hxl
      omega
    refine ⟨.mono ((List.range (Int.toNat ⌊(L : ℚ) / e.speed⌋)).map
        (fun (i : ℕ) => interpClamped xs ((i : ℚ) * xs.length /
          (Int.toNat ⌊(L : ℚ) / e.speed⌋)))), ?_, ?_, hclose⟩
    · simp [SpeedEffect.apply, hne, hxl, signalResample_eq_some _ _ hx]
    · simp only [channelLengths, channels, List.map_cons, List.map_nil,
        List.length_map, List.length_range]
  · cases chans with
    | nil =>
        refine ⟨.multi [], ?_, by simp [channelLengths, channels], hclose⟩
        simp [SpeedEffect.apply, hne, resampleChannels]
    | cons c rest =>
        have hall : ∀ x ∈ c :: rest, x ≠ [] := by
          intro x hx hempty
          have hxl : x.length = L :=
            hL _ (by simp only [channelLengths, channels]
                     exact List.mem_map_of_mem List.length hx)
          rw [hempty] at hxl
          simp at hxl
          omega
        have hcl : c.length = L :=
          hL _ (by simp [channelLengths, channels])
        obtain ⟨rs, hrs, hlen⟩ :=
          resampleChannels_eq_some (c :: rest) (Int.toNat ⌊(L : ℚ) / e.speed⌋)
            hall
        refine ⟨.multi rs, ?_, ?_, hclose⟩
        · simp [SpeedEffect.apply, hne, hcl, hrs]
        · simp only [channelLengths, channels, hlen, List.map_map]
          rfl

/-- Witness for `speed_apply_channel_lengths`: the spec's scenario — the
"slowed" preset, speed 0.8 = 4/5, on a 44100-sample mono buffer gives
55125 samples. -/
theorem speed_apply_channel_lengths_witness :
    ∃ out, SpeedEffect.apply ⟨4/5⟩ (.mono (List.replicate 44100 0)) = some out ∧
      channelLengths out = [55125] := by
  obtain ⟨out, happ, hlen, _⟩ :=
    speed_apply_channel_lengths ⟨4/5⟩ (.mono (List.replicate 44100 0)) 44100
      (by norm_num) (by norm_num)
      (by
        intro l hl
        simp only [channelLengths, channels, List.map_cons, List.map_nil,
          List.length_replicate, List.mem_singleton] at hl
        exact hl)
      (by norm_num)
  refine ⟨out, happ, ?_⟩
  rw [hlen]
  simp only [channelLengths, channels, List.map_cons, List.map_nil,
    List.length_replicate]
  norm_num
  decide

/-- Counterexample to claim C4 as stated: an empty mono buffer (length
`L = 0`) with the valid speed 1/2 does not come back with
`round(0 / 0.5) = 0` samples — the resampling FFT rejects the empty
input and the call fails. -/
theorem speed_apply_empty_counterexample :
    SpeedEffect.apply ⟨1/2⟩ (.mono []) = none ∧
    (0 : ℚ) < 1/2 ∧ (1/2 : ℚ) ≠ 1 := by
  refine ⟨?_, by norm_num, by norm_num⟩
  have h : (1/2 : ℚ) ≠ 1 := by norm_num
  simp [SpeedEffect.apply, h, signalResample]

/-- One pitch-shifted channel keeps its length, provided the
intermediate resampled signal `int(len / pitch_shift)` is nonempty —
guaranteed when `pitch_shift ≤ len`. -/
lemma shiftPitchChannel_length (e : PitchEffect) (xs : List ℚ)
    (hpos : 0 < e.pitch_shift) (hp : e.pitch_shift ≤ (xs.length : ℚ)) :
    ∃ r, shiftPitchChannel e xs = some r ∧ r.length = xs.length := by
  have hx : xs ≠ [] := by
    intro h
    rw [h] at hp
    simp at hp
    linarith
  have hn1 : 1 ≤ Int.toNat ⌊(xs.length : ℚ) / e.pitch_shift⌋ := by
    have h1 : (1 : ℚ) ≤ (xs.length : ℚ) / e.pitch_shift :=
      (one_le_div hpos).mpr hp
    have h2 : (1 : ℤ) ≤ ⌊(xs.length : ℚ) / e.pitch_shift⌋ :=
      Int.le_floor.mpr (by exact_mod_cast h1)
    omega
  set n := Int.toNat ⌊(xs.length : ℚ) / e.pitch_shift⌋ with hn
  have hres := signalResample_eq_some xs n hx
  set r1 := (List.range n).map
    (fun (i : ℕ) => interpClamped xs ((i : ℚ) * xs.length / n)) with hr1
  have hr1l : r1.length = n := by
    rw [hr1]
    simp only [List.length_map, List.length_range]
  have hr1nil : r1 ≠ [] := by
    intro hnil
    rw [hnil, List.length_nil] at hr1l
    omega
  refine ⟨(linspace 0 ((r1.length : ℚ) - 1) xs.length).map (interpClamped r1),
    ?_, ?_⟩
  · simp [shiftPitchChannel, ← hn, hres, npInterp, hr1nil]
  · simp only [List.length_map, linspace, List.length_range]

/-- Pitch-shifting every channel of a buffer succeeds, yields one output
channel per input channel in the same order — the `i`-th output channel
is exactly the shifted `i`-th input channel — and preserves each
channel's length. -/
lemma pitchChannels_eq_some (e : PitchEffect) (chans : List (List ℚ))
    (hpos : 0 < e.pitch_shift)
    (hp : ∀ c ∈ chans, e.pitch_shift ≤ (c.length : ℚ)) :
    ∃ rs, pitchChannels e chans = some rs ∧
      rs.map List.length = chans.map List.length ∧
      ∀ i, i < chans.length →
        some (rs.getD i []) = shiftPitchChannel e (chans.getD i []) := by
  induction chans with
  | nil => exact ⟨[], rfl, rfl, fun i hi => absurd hi (by simp)⟩
  | cons c rest ih =>
      obtain ⟨rs, hrs, hlen, hidx⟩ := ih (fun x hx => hp x (by simp [hx]))
      obtain ⟨r, hr, hrl⟩ :=
        shiftPitchChannel_length e c hpos (hp c (by simp))
      refine ⟨r :: rs, ?_, ?_, ?_⟩
      · simp [pitchChannels, hr, hrs]
      · simp [hrl, hlen]
      · intro i hi
        cases i with
        | zero => simpa using hr.symm
        | succ j =>
            simp only [List.getD_cons_succ]
            exact hidx j (by simpa using hi)

/-- Claim C5, amended to `pitch_shift ≤ channel length`: for every
buffer whose channels all have length `L` and every valid
`pitch_shift ≠ 1` with `pitch_shift ≤ L`, the pitch effect succeeds,
preserves every channel's length exactly, and processes channels
independently, recombining them in their original order (the `i`-th
output channel is the shifted `i`-th input channel).  (When
`int(L / pitch_shift) = 0` the interpolation step is handed an empty
array of sample points and fails, see the counterexample.) -/
theorem pitch_apply_preserves_lengths (e : PitchEffect) (samples : SampleData)
    (L : ℕ) (hpos : 0 < e.pitch_shift) (hne : e.pitch_shift ≠ 1)
    (hL : ∀ l ∈ channelLengths samples, l = L)
    (hp : e.pitch_shift ≤ (L : ℚ)) :
    ∃ out, PitchEffect.apply e samples = some out ∧
      channelLengths out = channelLengths samples ∧
      ∀ i, i < (channels samples).length →
        some ((channels out).getD i []) =
          shiftPitchChannel e ((channels samples).getD i []) := by
  rcases samples with xs | chans
  · have hxl : xs.length = L := hL _ (by simp [channelLengths, channels])
    obtain ⟨r, hr, hrl⟩ :=
      shiftPitchChannel_length e xs hpos (by rw [hxl]; exact hp)
    refine ⟨.mono r, ?_, ?_, ?_⟩
    · simp [PitchEffect.apply, hne, hr]
    · simp [channelLengths, channels, hrl]
    · intro i hi
      simp only [channels, List.length_cons, List.length_nil] at hi
      interval_cases i
      simpa [channels] using hr.symm
  · obtain ⟨rs, hrs, hlen, hidx⟩ :=
      pitchChannels_eq_some e chans hpos
        (fun c hc => by
          rw [hL c.length
            (by simp only [channelLengths, channels]
                exact List.mem_map_of_mem List.length hc)]
          exact hp)
    refine ⟨.multi rs, ?_, ?_, ?_⟩
    · simp [PitchEffect.apply, hne, hrs]
    · simpa [channelLengths, channels] using hlen
    · simpa [channels] using hidx

/-- Witness for `pitch_apply_preserves_lengths`: the `pitch_high` preset
factor 1.5 = 3/2 on a 4-sample mono buffer keeps all 4 samples. -/
theorem pitch_apply_preserves_lengths_witness :
    ∃ out, PitchEffect.apply ⟨3/2⟩ (.mono [0, 0, 0, 0]) = some out ∧
      channelLengths out = channelLengths (.mono [0, 0, 0, 0]) ∧
      ∀ i, i < (channels (.mono [0, 0, 0, 0])).length →
        some ((channels out).getD i []) =
          shiftPitchChannel ⟨3/2⟩ ((channels (.mono [0, 0, 0, 0])).getD i []) :=
  pitch_apply_preserves_lengths ⟨3/2⟩ (.mono [0, 0, 0, 0]) 4
    (by norm_num) (by norm_num)
    (by
      intro l hl
      simp only [channelLengths, channels, List.map_cons, List.map_nil,
        List.length_cons, List.length_nil, List.mem_singleton] at hl
      simp [hl])
    (by norm_num)

/-- Counterexample to claim C5 as stated: a 1-sample mono buffer with
the valid factor `pitch_shift = 2` does not come back with 1 sample —
`int(1 / 2) = 0`, the intermediate resample is empty, and `np.interp`
rejects its empty array of sample points, so the call fails. -/
theorem pitch_apply_short_buffer_counterexample :
    PitchEffect.apply ⟨2⟩ (.mono [0]) = none ∧
    (0 : ℚ) < 2 ∧ (2 : ℚ) ≠ 1 := by
  refine ⟨?_, by norm_num, by norm_num⟩
  have h2 : (2 : ℚ) ≠ 1 := by norm_num
  have hfl : Int.toNat ⌊(([(0 : ℚ)].length : ℚ)) / (2 : ℚ)⌋ = 0 := by
    norm_num
  simp [PitchEffect.apply, h2, shiftPitchChannel, hfl, signalResample, npInterp]
  norm_num

/-- Claim C9: a recording that captured zero blocks fails with
`EmptyRecordingError` on `stop_recording`, and no file is written. -/
theorem stop_recording_empty_capture (s : RecState) (path : String)
    (hact : s.recordingActive = true) (hbuf : s.recordingBuffer = []) :
    (stop_recording s path).result = .error .emptyRecording ∧
    (stop_recording s path).written = none := by
  simp [stop_recording, hact, hbuf]

/-- Witness for `stop_recording_empty_capture`: an active stream at
44100 Hz with an empty block buffer. -/
theorem stop_recording_empty_capture_witness :
    (stop_recording ⟨some ⟨44100, 2⟩, [], true⟩ "/tmp/out.wav").result =
        .error .emptyRecording ∧
    (stop_recording ⟨some ⟨44100, 2⟩, [], true⟩ "/tmp/out.wav").written = none :=
  stop_recording_empty_capture ⟨some ⟨44100, 2⟩, [], true⟩ "/tmp/out.wav" rfl rfl

/-- Claim C10: before raising `EmptyRecordingError`, `stop_recording`
has already deactivated recording and closed the input stream, so
afterwards `is_recording` is false, a second `stop_recording` fails with
`NotRecordingError`, and a new `start_recording` succeeds. -/
theorem stop_recording_empty_capture_resets_state (s : RecState)
    (path path2 : String) (samplerate chans : ℕ)
    (hact : s.recordingActive = true) (hbuf : s.recordingBuffer = []) :
    is_recording (stop_recording s path).state = false ∧
    (stop_recording (stop_recording s path).state path2).result =
        .error .notRecording ∧
    start_recording (stop_recording s path).state samplerate chans =
        .ok ⟨some ⟨samplerate, chans⟩, [], true⟩ := by
  simp [stop_recording, start_recording, is_recording, hact, hbuf]

/-- Witness for `stop_recording_empty_capture_resets_state`: the same
empty-capture stop, followed by a fresh 48000 Hz mono start. -/
theorem stop_recording_empty_capture_resets_state_witness :
    is_recording (stop_recording ⟨some ⟨44100, 2⟩, [], true⟩ "/tmp/a.wav").state =
        false ∧
    (stop_recording (stop_recording ⟨some ⟨44100, 2⟩, [], true⟩ "/tmp/a.wav").state
        "/tmp/b.wav").result = .error .notRecording ∧
    start_recording (stop_recording ⟨some ⟨44100, 2⟩, [], true⟩ "/tmp/a.wav").state
        48000 1 = .ok ⟨some ⟨48000, 1⟩, [], true⟩ :=
  stop_recording_empty_capture_resets_state ⟨some ⟨44100, 2⟩, [], true⟩
    "/tmp/a.wav" "/tmp/b.wav" 48000 1 rfl rfl

/-- Claim C6: trim rejects `start_time < 0` and `end_time <= start_time`
with the argument-validation `ValueError`s, rejects a start sample index
at or beyond the total sample count with the range `ValueError`, and
otherwise succeeds for every end time — an overrunning end index is
clamped, never an error. -/
theorem trim_validation (data : List ℚ) (samplerate : ℕ)
    (startTime endTime : ℚ) :
    (startTime < 0 → trim data samplerate startTime endTime =
        .error (.invalidArgument "start_time cannot be negative")) ∧
    (0 ≤ startTime → endTime ≤ startTime →
      trim data samplerate startTime endTime =
        .error (.invalidArgument "end_time must be greater than start_time")) ∧
    (0 ≤ startTime → startTime < endTime →
      data.length ≤ Int.toNat ⌊startTime * samplerate⌋ →
      trim data samplerate startTime endTime = .error (.rangeError startTime)) ∧
    (0 ≤ startTime → startTime < endTime →
      Int.toNat ⌊startTime * samplerate⌋ < data.length →
      ∃ out, trim data samplerate startTime endTime = .ok (out, samplerate)) := by
  refine ⟨fun h0 => ?_, fun h0 h1 => ?_, fun h0 h1 h2 => ?_, fun h0 h1 h2 => ?_⟩
  · simp only [trim, if_pos h0]
  · simp only [trim, if_neg (not_lt.mpr h0), if_pos h1]
  · simp only [trim, if_neg (not_lt.mpr h0), if_neg (not_le.mpr h1), if_pos h2]
  · exact ⟨(data.drop (Int.toNat ⌊startTime * samplerate⌋)).take
      (min (Int.toNat ⌊endTime * samplerate⌋) data.length -
        Int.toNat ⌊startTime * samplerate⌋),
      by simp only [trim, if_neg (not_lt.mpr h0), if_neg (not_le.mpr h1),
        if_neg (not_le.mpr h2)]⟩

/-- Witness for `trim_validation`: on a 3-sample file at 1 Hz, a
negative start, an empty range, a start at 5 s (past the 3-sample end),
and a valid trim whose end time 100 s far overruns the file. -/
theorem trim_validation_witness :
    trim [0, 0, 0] 1 (-1) 2 =
        .error (.invalidArgument "start_time cannot be negative") ∧
    trim [0, 0, 0] 1 0 0 =
        .error (.invalidArgument "end_time must be greater than start_time") ∧
    trim [0, 0, 0] 1 5 6 = .error (.rangeError 5) ∧
    ∃ out, trim [0, 0, 0] 1 0 100 = .ok (out, 1) := by
  refine ⟨(trim_validation [0, 0, 0] 1 (-1) 2).1 (by norm_num),
    (trim_validation [0, 0, 0] 1 0 0).2.1 le_rfl le_rfl,
    (trim_validation [0, 0, 0] 1 5 6).2.2.1 (by norm_num) (by norm_num) ?_,
    (trim_validation [0, 0, 0] 1 0 100).2.2.2 le_rfl (by norm_num) ?_⟩
  · norm_num
  · norm_num

/-- Claim C7, corrected: trim converts each time to a sample index by
truncation — `int(time * samplerate)`, the floor for these non-negative
times — not by rounding to nearest, and writes the half-open sample
range from the start index up to the end index clamped to the total, at
the input's original sample rate. -/
theorem trim_truncates_and_slices (data : List ℚ) (samplerate : ℕ)
    (startTime endTime : ℚ) (h0 : 0 ≤ startTime) (h1 : startTime < endTime)
    (h2 : Int.toNat ⌊startTime * samplerate⌋ < data.length) :
    ∃ out, trim data samplerate startTime endTime = .ok (out, samplerate) ∧
      out.length = min (Int.toNat ⌊endTime * samplerate⌋) data.length
                   - Int.toNat ⌊startTime * samplerate⌋ ∧
      ∀ i, i < out.length →
        out.getD i 0 = data.getD (Int.toNat ⌊startTime * samplerate⌋ + i) 0 := by
  have heq : trim data samplerate startTime endTime =
      .ok ((data.drop (Int.toNat ⌊startTime * samplerate⌋)).take
            (min (Int.toNat ⌊endTime * samplerate⌋) data.length -
              Int.toNat ⌊startTime * samplerate⌋), samplerate) := by
    simp only [trim, if_neg (not_lt.mpr h0), if_neg (not_le.mpr h1),
      if_neg (not_le.mpr h2)]
  refine ⟨_, heq, ?_, ?_⟩
  · simp only [List.length_take, List.length_drop]
    omega
  · intro i hi
    simp only [List.length_take, List.length_drop] at hi
    have hib : i < data.length - Int.toNat ⌊startTime * samplerate⌋ := lt_min_iff.mp hi |>.2
    rw [List.getD_eq_getElem?_getD, List.getD_eq_getElem?_getD,
      List.getElem?_take_of_lt (lt_min_iff.mp hi |>.1), List.getElem?_drop]

/-- Witness for `trim_truncates_and_slices`: a 5-sample file at 1 Hz
trimmed from 1 s to an overrunning 100 s keeps samples 1 through 4. -/
theorem trim_truncates_and_slices_witness :
    ∃ out, trim [0, 1, 2, 3, 4] 1 1 100 = .ok (out, 1) ∧
      out.length = min (Int.toNat ⌊(100 : ℚ) * (1 : ℕ)⌋)
                     ([0, 1, 2, 3, 4] : List ℚ).length
                   - Int.toNat ⌊(1 : ℚ) * (1 : ℕ)⌋ ∧
      ∀ i, i < out.length →
        out.getD i 0 =
          ([0, 1, 2, 3, 4] : List ℚ).getD (Int.toNat ⌊(1 : ℚ) * (1 : ℕ)⌋ + i) 0 :=
  trim_truncates_and_slices [0, 1, 2, 3, 4] 1 1 100 (by norm_num) (by norm_num)
    (by norm_num)

/-- Counterexample to claim C7 as stated: on a 30-sample file at 10 Hz,
`start_time = 0.19` converts to sample index `int(1.9) = 1`, so 9
samples survive a trim to `end_time = 1`; rounding to nearest as claimed
would give index `round(1.9) = 2` and only 8 samples. -/
theorem trim_rounds_counterexample :
    trim (List.replicate 30 0) 10 (19/100) 1 =
        .ok (List.replicate 9 0, 10) ∧
    Int.toNat ⌊(19/100 : ℚ) * 10⌋ = 1 ∧
    Int.toNat (round ((19/100 : ℚ) * 10)) = 2 ∧
    min (Int.toNat (round ((1 : ℚ) * 10))) 30 - Int.toNat (round ((19/100 : ℚ) * 10)) = 8 ∧
    (9 : ℕ) ≠ 8 := by
  refine ⟨?_, by norm_num, ?_, ?_, by decide⟩
  · simp only [trim]
    norm_num [List.drop_replicate, List.take_replicate]
    all_goals decide
  · norm_num [round_eq]
    decide
  · norm_num [round_eq]
    decide

/-- Claim C3 (code bug): a recording started at 48000 Hz whose single
captured block reaches `stop_recording` is written with the hardcoded
sample rate 44100, not the stream's configured rate of 48000. -/
theorem stop_recording_hardcodes_samplerate :
    ∃ s1, start_recording initialRecState 48000 2 = .ok s1 ∧
      (captureBlock s1 [[0]]).recordingStream = some ⟨48000, 2⟩ ∧
      (stop_recording (captureBlock s1 [[0]]) "/tmp/out.wav").written =
        some ⟨"/tmp/out.wav", [[0]], 44100⟩ ∧
      (44100 : ℕ) ≠ 48000 := by
  refine ⟨_, rfl, rfl, ?_, by decide⟩
  simp [stop_recording, captureBlock, start_recording, initialRecState]

end PulseBoard
